import Mathlib

/-!
Verification development for the securitykit repository.

Shallow embedding of the parts of the code base relevant to the
claims under scrutiny:

* config value conversion        (utils/config_loader/converters.py)
* policy builder                 (utils/config_loader/builder.py)
* algorithm / policy registries  (hashing/registry.py, core/registry.py)
* pepper strategies & pipeline   (transform/pepper/*.py)
* algorithm facade               (hashing/algorithm.py, hashing/algorithms/*.py)
* argon2 calibration search      (bench/argon2_calibrate.py)
* benchmark result & analyzer    (bench/engine.py, bench/analyzer.py)
* password validator             (password/validator.py)

Python strings are modelled as Lean `String` (lists of characters where
convenient), Python ints as `Int`/`Nat`, Python floats as `ℚ` (exact
arithmetic; no claim below depends on IEEE rounding), raising code as
`Except`/`Option` results.  External trusted libraries (argon2/bcrypt,
hashlib digests, math.sqrt) are modelled as abstract parameters.
-/

namespace SecurityKit

/-- Universe of parsed configuration values, mirroring the Python values
produced by `default_parse` (bool / int / float / str / list of str). -/
inductive PValue where
  | bool (b : Bool)
  | int (n : Int)
  | float (q : ℚ)
  | str (s : String)
  | list (xs : List String)
deriving DecidableEq

/-- Python `str.strip()` on a list of characters: drop whitespace from
both ends. -/
def stripChars (cs : List Char) : List Char :=
  ((cs.dropWhile Char.isWhitespace).reverse.dropWhile Char.isWhitespace).reverse

/-- Lower-case a list of characters (Python `str.lower()` on the ASCII
tokens involved here). -/
def lowerChars (cs : List Char) : List Char :=
  cs.map Char.toLower

/-- Numeric value of a digit string, most significant digit first
(`int(...)` on a digit-only string). -/
def digitsVal (cs : List Char) : Nat :=
  cs.foldl (fun acc c => 10 * acc + (c.toNat - '0'.toNat)) 0

/-- Characters allowed in the size-suffix group of `_try_size`'s regex,
`[kKmMgGbB]`. -/
def isSizeChar (c : Char) : Bool :=
  c = 'k' || c = 'K' || c = 'm' || c = 'M' || c = 'g' || c = 'G' || c = 'b' || c = 'B'

/-- Multiplier encoded by a lowered size suffix:
`k/kb → 1024`, `m/mb → 1024²`, `g/gb → 1024³`, empty or `b` → 1,
anything else (e.g. `bb`, `kg`) is not size-like. -/
def suffixMult (sl : List Char) : Option Int :=
  if sl = ['k'] ∨ sl = ['k', 'b'] then some 1024
  else if sl = ['m'] ∨ sl = ['m', 'b'] then some (1024 * 1024)
  else if sl = ['g'] ∨ sl = ['g', 'b'] then some (1024 * 1024 * 1024)
  else if sl = [] ∨ sl = ['b'] then some 1
  else none

/-- Embedding of `_try_size` (converters.py): full match of
`\s*([0-9]+)([kKmMgGbB]{0,2})\s*`, multiplier applied per suffix. -/
def trySize (cs : List Char) : Option Int :=
  let t := stripChars cs
  let digits := t.takeWhile Char.isDigit
  let rest := t.dropWhile Char.isDigit
  if digits = [] then none
  else if rest.length ≤ 2 ∧ rest.all isSizeChar then
    (suffixMult (lowerChars rest)).map (fun m => (digitsVal digits : Int) * m)
  else none

/-- Full match of `-?[0-9]+` . -/
def isIntLit (cs : List Char) : Bool :=
  match cs with
  | [] => false
  | '-' :: rest => rest ≠ [] && rest.all Char.isDigit
  | _ => cs.all Char.isDigit

/-- Value of an integer literal accepted by `isIntLit`. -/
def intLitVal (cs : List Char) : Int :=
  match cs with
  | '-' :: rest => -(digitsVal rest : Int)
  | _ => (digitsVal cs : Int)

/-- Full match of `-?[0-9]+\.[0-9]+` . -/
def isFloatLit (cs : List Char) : Bool :=
  let body := match cs with
    | '-' :: rest => rest
    | _ => cs
  let ip := body.takeWhile Char.isDigit
  let rest := body.dropWhile Char.isDigit
  match rest with
  | '.' :: frac => ip ≠ [] && frac ≠ [] && frac.all Char.isDigit
  | _ => false

/-- Exact rational value of a decimal literal accepted by `isFloatLit`. -/
def floatLitVal (cs : List Char) : ℚ :=
  let (sign, body) : ℚ × List Char := match cs with
    | '-' :: rest => (-1, rest)
    | _ => (1, cs)
  let ip := body.takeWhile Char.isDigit
  let rest := body.dropWhile Char.isDigit
  let frac := rest.drop 1
  sign * ((digitsVal ip : ℚ) + (digitsVal frac : ℚ) / ((10 : ℚ) ^ frac.length))

/-- Split on `[;,]` (the Python `re.split`), keeping every piece. -/
def splitSemiComma (cs : List Char) : List (List Char) :=
  match cs with
  | [] => [[]]
  | c :: rest =>
    let tails := splitSemiComma rest
    if c = ',' ∨ c = ';' then [] :: tails
    else match tails with
      | [] => [[c]]
      | t :: ts => (c :: t) :: ts

/-- List branch of `default_parse`: split on `,`/`;`, strip each piece,
keep the non-empty ones. -/
def listTokens (cs : List Char) : List String :=
  ((splitSemiComma cs).map stripChars).filterMap
    (fun p => if p = [] then none else some (String.mk p))

/-- Embedding of `default_parse` (converters.py): heuristic conversion
of a raw config value, applied in the code's priority order
(pass-through for non-strings, boolean tokens, sizes, ints, floats,
delimiter-separated lists, otherwise the original string). -/
def default_parse (value : PValue) : PValue :=
  match value with
  | .str s =>
    let raw := stripChars s.data
    let low := lowerChars raw
    if low = "true".data ∨ low = "on".data ∨ low = "yes".data then .bool true
    else if low = "false".data ∨ low = "off".data ∨ low = "no".data then .bool false
    else match trySize raw with
      | some n => .int n
      | none =>
        if isIntLit raw then .int (intLitVal raw)
        else if isFloatLit raw then .float (floatLitVal raw)
        else if raw.contains ',' || raw.contains ';' then .list (listTokens raw)
        else .str s
  | v => v

/-- Python `str.lower()` as used on registry keys. -/
def pyLower (s : String) : String :=
  String.mk (lowerChars s.data)

/-- Python `str.upper()` as used on parameter names. -/
def pyUpper (s : String) : String :=
  String.mk (s.data.map Char.toUpper)

/-- Identity of a Python class object (two registrations conflict exactly
when the identities differ, which plain `Nat` captures). -/
abbrev ClassId := Nat

/-- Registry content: insertion-ordered key to class-object bindings. -/
abbrev RegistryMap := List (String × ClassId)

/-- Error raised by the core registry on a duplicate key. -/
inductive RegistryError where
  | conflict (msg : String)
deriving DecidableEq

/-- Embedding of `Registry.register` from hashing/registry.py: a duplicate
key is skipped (debug log only), otherwise the binding is appended. -/
def hashingRegister (reg : RegistryMap) (key : String) (cls : ClassId) : RegistryMap :=
  let k := pyLower key
  if (reg.lookup k).isSome then reg
  else reg ++ [(k, cls)]

/-- Embedding of `Registry.register` from core/registry.py: a duplicate
key raises `RegistryConflictError`, otherwise the binding is appended. -/
def coreRegister (name : String) (reg : RegistryMap) (key : String) (cls : ClassId) :
    Except RegistryError RegistryMap :=
  let k := pyLower key
  if (reg.lookup k).isSome then
    .error (.conflict (name ++ " '" ++ k ++ "' already registered."))
  else .ok (reg ++ [(k, cls)])

/-! ### Policy builder (utils/config_loader/builder.py) -/

/-- Primitive type hints enforced by `PolicyBuilder._collect`'s second
phase (`expected in (int, float, bool)`). -/
inductive PrimType where
  | tInt
  | tFloat
  | tBool
deriving DecidableEq

/-- Python `__name__` of a primitive type hint. -/
def PrimType.pyName : PrimType → String
  | .tInt => "int"
  | .tFloat => "float"
  | .tBool => "bool"

/-- Python `type(v).__name__` for a parsed value. -/
def PValue.typeName : PValue → String
  | .bool _ => "bool"
  | .int _ => "int"
  | .float _ => "float"
  | .str _ => "str"
  | .list _ => "list"

/-- Python `isinstance(v, t)` for the primitive hints (note that `bool`
is a subclass of `int` in Python). -/
def pyIsInstance (t : PrimType) (v : PValue) : Bool :=
  match t, v with
  | .tInt, .int _ => true
  | .tInt, .bool _ => true
  | .tFloat, .float _ => true
  | .tBool, .bool _ => true
  | _, _ => false

/-- Truncation toward zero, the behaviour of Python `int(float)`. -/
def ratTrunc (q : ℚ) : Int :=
  if 0 ≤ q then ⌊q⌋ else ⌈q⌉

/-- Python `int(str)`: optional sign and digits after stripping
whitespace; anything else raises. -/
def pyIntOfStr (cs : List Char) : Option Int :=
  let t := stripChars cs
  match t with
  | '-' :: rest =>
    if rest ≠ [] ∧ rest.all Char.isDigit then some (-(digitsVal rest : Int)) else none
  | '+' :: rest =>
    if rest ≠ [] ∧ rest.all Char.isDigit then some (digitsVal rest : Int) else none
  | _ => if t ≠ [] ∧ t.all Char.isDigit then some (digitsVal t : Int) else none

/-- Python `float(str)` restricted to the plain integer / decimal
literals that occur for config values (exponent forms are out of scope
for the claims settled here). -/
def pyFloatOfStr (cs : List Char) : Option ℚ :=
  let t := stripChars cs
  if isIntLit t then some ((intLitVal t : Int) : ℚ)
  else if isFloatLit t then some (floatLitVal t)
  else none

/-- Coercion attempted by `_collect` when `isinstance` fails:
`bool` is strict (always raises), `int(val)` / `float(val)` otherwise. -/
def pyCoerce (t : PrimType) (v : PValue) : Option PValue :=
  match t with
  | .tBool => none
  | .tInt =>
    match v with
    | .int n => some (.int n)
    | .bool b => some (.int (if b then 1 else 0))
    | .float q => some (.int (ratTrunc q))
    | .str s => (pyIntOfStr s.data).map PValue.int
    | .list _ => none
  | .tFloat =>
    match v with
    | .float q => some (.float q)
    | .int n => some (.float (n : ℚ))
    | .bool b => some (.float (if b then 1 else 0))
    | .str s => (pyFloatOfStr s.data).map PValue.float
    | .list _ => none

/-- One constructor parameter of a policy class: name, optional default
and optional primitive type hint. -/
structure ParamSpec where
  name : String
  default : Option PValue
  expected : Option PrimType

/-- A policy-like class: its constructor signature and its constructor,
whose own invariant checks may raise (modelled as a `String` rendering
of the raised exception). -/
structure PolicyClass (α : Type) where
  params : List ParamSpec
  construct : List (String × PValue) → Except String α

/-- A value source (config mapping): `has`/`get` folded into one lookup. -/
structure ValueSource where
  lookup : String → Option PValue

/-- Resolution of a single constructor parameter in `_collect`'s first
phase: convert the configured raw value, fall back to the default, or
record the problem for this parameter. -/
def resolveParam (src : ValueSource) (conv : PValue → Except String PValue)
    (pfx : String) (p : ParamSpec) : Except String (String × PValue) :=
  let key := pfx ++ pyUpper p.name
  match src.lookup key with
  | some raw =>
    match conv raw with
    | .ok v => .ok (p.name, v)
    | .error e => .error ("Invalid value for '" ++ key ++ "': " ++ e)
  | none =>
    match p.default with
    | some d => .ok (p.name, d)
    | none => .error ("Missing required '" ++ key ++ "'")

/-- Values successfully resolved in the first phase of `_collect`. -/
def collectResolved (src : ValueSource) (conv : PValue → Except String PValue)
    (pfx : String) (params : List ParamSpec) : List (String × PValue) :=
  params.filterMap (fun p => (resolveParam src conv pfx p).toOption)

/-- All problems recorded in the first phase of `_collect`, in parameter
order (the code appends to `errors` and keeps looping). -/
def collectProblems (src : ValueSource) (conv : PValue → Except String PValue)
    (pfx : String) (params : List ParamSpec) : List String :=
  params.filterMap (fun p =>
    match resolveParam src conv pfx p with
    | .error e => some e
    | .ok _ => none)

/-- Python `"; ".join(...)` and friends. -/
def joinSep (sep : String) : List String → String
  | [] => ""
  | [x] => x
  | x :: xs => x ++ sep ++ joinSep sep (xs)

/-- Exceptions surfaced by the policy builder; a `configValidation`
value is the stable `ConfigValidationError` kind. -/
inductive PyExc where
  | configValidation (msg : String)
  | other (msg : String)
deriving DecidableEq

/-- Type enforcement of one resolved field (second phase of `_collect`):
keep the value if `isinstance` holds, else coerce, else record a type
mismatch. -/
def enforceOne (pfx : String) (p : ParamSpec) (v : PValue) : Except String PValue :=
  match p.expected with
  | none => .ok v
  | some t =>
    if pyIsInstance t v then .ok v
    else
      match pyCoerce t v with
      | some v2 => .ok v2
      | none =>
        .error ("Type mismatch for '" ++ pfx ++ pyUpper p.name ++ "': expected "
          ++ t.pyName ++ ", got " ++ v.typeName)

/-- Resolved values after the second phase (coerced where possible). -/
def enforceValues (pfx : String) (params : List ParamSpec)
    (resolved : List (String × PValue)) : List (String × PValue) :=
  resolved.map (fun nv =>
    match params.find? (fun p => p.name = nv.1) with
    | none => nv
    | some p =>
      match enforceOne pfx p nv.2 with
      | .ok v2 => (nv.1, v2)
      | .error _ => nv)

/-- Type mismatches recorded by the second phase. -/
def enforceErrors (pfx : String) (params : List ParamSpec)
    (resolved : List (String × PValue)) : List String :=
  params.filterMap (fun p =>
    match resolved.lookup p.name with
    | none => none
    | some v =>
      match enforceOne pfx p v with
      | .ok _ => none
      | .error e => some e)

/-- Embedding of `PolicyBuilder.build` (builder.py): collect, raising a
single aggregated `ConfigValidationError` when any problems were
recorded, then enforce primitive types, then construct, wrapping a
constructor-level failure into a `ConfigValidationError`. -/
def PolicyBuilder.build {α : Type} (src : ValueSource)
    (conv : PValue → Except String PValue) (cls : PolicyClass α)
    (pfx label : String) : Except PyExc α :=
  let problems := collectProblems src conv pfx cls.params
  if problems ≠ [] then
    .error (.configValidation ("Errors building " ++ label ++ ": " ++ joinSep "; " problems))
  else
    let resolved := collectResolved src conv pfx cls.params
    let typeErrors := enforceErrors pfx cls.params resolved
    if typeErrors ≠ [] then
      .error (.configValidation ("Errors building " ++ label ++ ": " ++ joinSep "; " typeErrors))
    else
      match cls.construct (enforceValues pfx cls.params resolved) with
      | .ok a => .ok a
      | .error e => .error (.configValidation ("Invalid configuration for " ++ label ++ ": " ++ e))

/-! ### Pepper strategies (transform/pepper/strategies.py) -/

/-- Core loop of `InterleaveStrategy.apply`: emit each password
character, and after every `f`-th one also emit the next cyclic token
character (`token[ti % len(token)]`, then `ti += 1`). -/
def interleaveChars (token : List Char) (f : Nat) : List Char → Nat → Nat → List Char
  | [], _, _ => []
  | c :: rest, i, ti =>
    if (i + 1) % f = 0 then
      c :: token.getD (ti % token.length) 'a' :: interleaveChars token f rest (i + 1) (ti + 1)
    else
      c :: interleaveChars token f rest (i + 1) ti

/-- The `interleave` pepper strategy dataclass. -/
structure InterleaveStrategy where
  token : String
  frequency : Int

/-- Embedding of `InterleaveStrategy.apply`: empty token or
non-positive frequency returns the password unchanged, otherwise the
interleaving loop runs. -/
def InterleaveStrategy.apply (st : InterleaveStrategy) (password : String) : String :=
  if st.token.data = [] ∨ st.frequency ≤ 0 then password
  else String.mk (interleaveChars st.token.data st.frequency.toNat password.data 0 0)

/-- The built-in pepper strategies (named after strategies.py classes;
`prefixStrat` instead of the reserved word). -/
inductive PepperStrategy where
  | noop
  | prefixStrat (p : String)
  | suffixStrat (sfx : String)
  | prefixSuffixStrat (p sfx : String)
  | interleaveStrat (token : String) (frequency : Int)
  | hmacStrat (key : String) (algo : String)
deriving DecidableEq

/-- Application of a strategy to a password.  The HMAC hex digest is the
trusted external primitive, passed in as `hmacHex algo key password`. -/
def PepperStrategy.applyS (hmacHex : String → String → String → String) :
    PepperStrategy → String → String
  | .noop, pw => pw
  | .prefixStrat p, pw => p ++ pw
  | .suffixStrat sfx, pw => pw ++ sfx
  | .prefixSuffixStrat p sfx, pw => p ++ pw ++ sfx
  | .interleaveStrat token f, pw => (InterleaveStrategy.mk token f).apply pw
  | .hmacStrat key algo, pw => hmacHex algo key pw

/-! ### Pepper builder and pipeline (transform/pepper/builder.py, pipeline.py) -/

/-- Normalized pepper configuration dataclass (`model.py`); `prefix_`
stands for the Python field `prefix`. -/
structure PepperConfig where
  enabled : Bool := true
  mode : String := "noop"
  secret : String := ""
  prefix_ : String := ""
  suffix : String := ""
  interleave_freq : Int := 0
  interleave_token : String := ""
  hmac_key : String := ""
  hmac_algo : String := "sha256"
deriving DecidableEq

/-- The pepper error taxonomy raised by the builder. -/
inductive PepperError where
  | configError (msg : String)
  | unknownStrategy (msg : String)
  | constructionError (msg : String)
deriving DecidableEq

/-- Digest constructors guaranteed as attributes of Python `hashlib`
(the `getattr(hashlib, algo)` probe in builder.py). -/
def hashlibAlgos : List String :=
  ["md5", "sha1", "sha224", "sha256", "sha384", "sha512",
   "sha3_224", "sha3_256", "sha3_384", "sha3_512",
   "blake2b", "blake2s", "shake_128", "shake_256"]

/-- Embedding of `build_pepper_strategy` (builder.py): dispatch on the
lowered mode, with the `or` fallbacks of the code and the three hard
failure paths (missing HMAC key, unsupported digest, unknown mode). -/
def build_pepper_strategy (cfg : PepperConfig) : Except PepperError PepperStrategy :=
  let mode := pyLower (if cfg.mode = "" then "noop" else cfg.mode)
  if cfg.enabled = false ∨ mode = "noop" then .ok .noop
  else
    let secret := cfg.secret
    if mode = "prefix" then
      .ok (.prefixStrat (if cfg.prefix_ = "" then secret else cfg.prefix_))
    else if mode = "suffix" then
      .ok (.suffixStrat (if cfg.suffix = "" then secret else cfg.suffix))
    else if mode = "prefix_suffix" then
      .ok (.prefixSuffixStrat (if cfg.prefix_ = "" then secret else cfg.prefix_)
        (if cfg.suffix = "" then secret else cfg.suffix))
    else if mode = "interleave" then
      if cfg.interleave_freq ≤ 0 then .ok .noop
      else
        .ok (.interleaveStrat (if cfg.interleave_token = "" then secret else cfg.interleave_token)
          cfg.interleave_freq)
    else if mode = "hmac" then
      if cfg.hmac_key = "" then .error (.configError "PEPPER_HMAC_KEY required for hmac mode")
      else
        let algo := if cfg.hmac_algo = "" then "sha256" else cfg.hmac_algo
        if algo ∈ hashlibAlgos then .ok (.hmacStrat cfg.hmac_key algo)
        else .error (.constructionError ("Unsupported HMAC algorithm '" ++ cfg.hmac_algo ++ "'"))
    else .error (.unknownStrategy ("Unknown PEPPER_MODE '" ++ cfg.mode ++ "'"))

/-- Embedding of `_cached_strategy` (pipeline.py): the parsed-config
outcome (the `ConfigLoader` step, which may itself fail) is fed to the
builder; every failure falls back to the noop strategy. -/
def cachedStrategy (cfgE : Except String PepperConfig) : PepperStrategy :=
  match cfgE with
  | .error _ => .noop
  | .ok cfg =>
    match build_pepper_strategy cfg with
    | .ok s => s
    | .error _ => .noop

/-- Embedding of `apply_pepper` (pipeline.py): empty passwords pass
through, otherwise the (fallback-protected) strategy is applied. -/
def apply_pepper (hmacHex : String → String → String → String)
    (password : String) (cfgE : Except String PepperConfig) : String :=
  if password = "" then password
  else (cachedStrategy cfgE).applyS hmacHex password

/-! ### Algorithm facade (hashing/algorithm.py, hashing/algorithms/argon2.py) -/

/-- The opaque, trusted hashing library behind `hash_raw`/`verify_raw`
(argon2.PasswordHasher resp. the bcrypt calls). -/
structure RawBackend where
  rawHash : String → String
  rawVerify : String → String → Bool

/-- Trusted-library contract for the opaque backend: hashes are
non-empty strings and verification of a produced hash against a
candidate succeeds exactly for the hashed input (the round-trip
contract of argon2/bcrypt, out of scope for reimplementation). -/
def IdealBackend (B : RawBackend) : Prop :=
  (∀ s, B.rawHash s ≠ "") ∧ ∀ s t, B.rawVerify (B.rawHash s) t = decide (s = t)

/-- Failures of the hash path (`HashingError` kinds). -/
inductive HashFailure where
  | emptyPassword
  | hashingError (msg : String)
deriving DecidableEq

/-- Embedding of `Argon2.hash_raw` / `Bcrypt.hash_raw`: reject an empty
peppered password, else delegate to the trusted library. -/
def hash_raw (B : RawBackend) (peppered : String) : Except HashFailure String :=
  if peppered = "" then .error .emptyPassword
  else .ok (B.rawHash peppered)

/-- Embedding of `Argon2.verify_raw` / `Bcrypt.verify_raw`: empty
stored hash or empty peppered password give `false`, a library mismatch
is already folded into the backend's boolean. -/
def verify_raw (B : RawBackend) (stored peppered : String) : Bool :=
  if stored = "" ∨ peppered = "" then false
  else B.rawVerify stored peppered

/-- The facade-side pepper application (`apply_pepper`'s empty-password
shortcut with the resolved strategy abstracted into a function). -/
def applyPepperFn (pepper : String → String) (pw : String) : String :=
  if pw = "" then pw else pepper pw

/-- Embedding of `Algorithm.hash`: reject empty passwords, pepper once,
delegate to the raw implementation. -/
def Algorithm.hashF (B : RawBackend) (pepper : String → String)
    (password : String) : Except HashFailure String :=
  if password = "" then .error .emptyPassword
  else hash_raw B (applyPepperFn pepper password)

/-- Embedding of `Algorithm.verify`: empty stored hash or password give
`false`, otherwise pepper once and delegate to the raw implementation. -/
def Algorithm.verifyF (B : RawBackend) (pepper : String → String)
    (stored password : String) : Bool :=
  if stored = "" ∨ password = "" then false
  else verify_raw B stored (applyPepperFn pepper password)

/-! ### Argon2 calibration search (bench/argon2_calibrate.py) -/

/-- Cost levers adjusted by the calibration loop. -/
structure CalState where
  time_cost : Nat
  memory_cost : Nat
  parallelism : Nat
deriving DecidableEq

/-- Outcome of one iteration of the search loop: measured duration in
the target window (stop with the current state), one lever adjusted, or
all levers exhausted (stop as "limited"). -/
inductive CalStep where
  | inWindow
  | adjust (next : CalState)
  | limited
deriving DecidableEq

/-- Embedding of the body of `calibrate_argon2`'s while loop for one
iteration.  `int(memory_cost * 1.5)` and `int(memory_cost / 2)` are
exact in IEEE double for every reachable value, hence the `Nat`
divisions. -/
def calibrateStep (cpu_count max_time_cost max_memory_kib : Nat)
    (enable_parallelism : Bool) (target_lower_ms target_upper_ms : ℚ)
    (st : CalState) (elapsed : ℚ) : CalStep :=
  if target_lower_ms ≤ elapsed ∧ elapsed ≤ target_upper_ms then .inWindow
  else if elapsed < target_lower_ms then
    if st.time_cost < max_time_cost then
      .adjust { st with time_cost := st.time_cost + 1 }
    else if st.memory_cost < max_memory_kib then
      .adjust { st with memory_cost := min (3 * st.memory_cost / 2) max_memory_kib }
    else if enable_parallelism ∧ st.parallelism < cpu_count ∧ st.parallelism < 4 then
      .adjust { st with parallelism := st.parallelism + 1 }
    else .limited
  else
    if st.memory_cost > 65536 * 2 then
      .adjust { st with memory_cost := max 65536 (st.memory_cost / 2) }
    else if st.time_cost > 2 then
      .adjust { st with time_cost := max 2 (st.time_cost - 1) }
    else if enable_parallelism ∧ st.parallelism > 1 then
      .adjust { st with parallelism := st.parallelism - 1 }
    else .limited

/-- Modelled from the claim's words, verbatim lever order: under the
upper bound the memory lever is considered exhausted only at its floor
65536 (this is the reading the code refutes). -/
def calibrateStepClaim (cpu_count max_time_cost max_memory_kib : Nat)
    (target_lower_ms target_upper_ms : ℚ) (st : CalState) (elapsed : ℚ) : CalStep :=
  if target_lower_ms ≤ elapsed ∧ elapsed ≤ target_upper_ms then .inWindow
  else if elapsed < target_lower_ms then
    if st.time_cost < max_time_cost then
      .adjust { st with time_cost := st.time_cost + 1 }
    else if st.memory_cost < max_memory_kib then
      .adjust { st with memory_cost := min (3 * st.memory_cost / 2) max_memory_kib }
    else if st.parallelism < min 4 cpu_count then
      .adjust { st with parallelism := st.parallelism + 1 }
    else .limited
  else
    if st.memory_cost > 65536 then
      .adjust { st with memory_cost := max 65536 (st.memory_cost / 2) }
    else if st.time_cost > 2 then
      .adjust { st with time_cost := max 2 (st.time_cost - 1) }
    else if st.parallelism > 1 then
      .adjust { st with parallelism := st.parallelism - 1 }
    else .limited

/-- Modelled from the claim's words amended at exactly one point: the
memory lever de-escalates only while `memory_cost > 2 * 65536`. -/
def calibrateStepClaimAmended (cpu_count max_time_cost max_memory_kib : Nat)
    (target_lower_ms target_upper_ms : ℚ) (st : CalState) (elapsed : ℚ) : CalStep :=
  if target_lower_ms ≤ elapsed ∧ elapsed ≤ target_upper_ms then .inWindow
  else if elapsed < target_lower_ms then
    if st.time_cost < max_time_cost then
      .adjust { st with time_cost := st.time_cost + 1 }
    else if st.memory_cost < max_memory_kib then
      .adjust { st with memory_cost := min (3 * st.memory_cost / 2) max_memory_kib }
    else if st.parallelism < min 4 cpu_count then
      .adjust { st with parallelism := st.parallelism + 1 }
    else .limited
  else
    if st.memory_cost > 2 * 65536 then
      .adjust { st with memory_cost := max 65536 (st.memory_cost / 2) }
    else if st.time_cost > 2 then
      .adjust { st with time_cost := max 2 (st.time_cost - 1) }
    else if st.parallelism > 1 then
      .adjust { st with parallelism := st.parallelism - 1 }
    else .limited

/-! ### Benchmark results and analyzer (bench/engine.py, bench/analyzer.py) -/

/-- Python `min(list)` (raises `ValueError` on an empty sequence). -/
def pyMinList : List ℚ → Except String ℚ
  | [] => .error "ValueError: min() arg is an empty sequence"
  | x :: xs => .ok (xs.foldl min x)

/-- Python `max(list)` (raises `ValueError` on an empty sequence). -/
def pyMaxList : List ℚ → Except String ℚ
  | [] => .error "ValueError: max() arg is an empty sequence"
  | x :: xs => .ok (xs.foldl max x)

/-- Checked rational division: Python raises `ZeroDivisionError` on a
zero denominator. -/
def qdivE (a b : ℚ) : Except String ℚ :=
  if b = 0 then .error "ZeroDivisionError: division by zero" else .ok (a / b)

/-- A schema candidate value, numeric or not. -/
inductive BValue where
  | num (q : ℚ)
  | other (s : String)
deriving DecidableEq

/-- A policy as the analyzer sees it: `getattr(policy, key, None)`. -/
structure BPolicy where
  attrs : String → Option BValue

/-- The slice of a `BenchmarkResult` the analyzer reads. -/
structure AResult where
  policy : BPolicy
  median : ℚ

/-- A `BENCH_SCHEMA`: insertion-ordered dimension to candidate list. -/
abbrev Schema := List (String × List BValue)

/-- Numeric candidates of one dimension (`[float(v) for v in values if
_is_number(v)]`). -/
def numericValues (vs : List BValue) : List ℚ :=
  vs.filterMap (fun v => match v with | .num q => some q | .other _ => none)

/-- Embedding of `_iter_numeric_dimensions`: skip empty dimensions and
dimensions without numeric candidates. -/
def iterNumericDimensions (schema : Schema) : List (String × List ℚ) :=
  schema.filterMap (fun kv =>
    if kv.2 = [] then none
    else
      let nv := numericValues kv.2
      if nv = [] then none else some (kv.1, nv))

/-- Embedding of `_compute_dimension_position`: `None` for a missing or
non-numeric policy attribute, the neutral 0.5 for a single-valued
dimension, otherwise the clamped normalized position (the division is
modelled checked, as in Python). -/
def computeDimensionPosition (r : AResult) (key : String) (nv : List ℚ) :
    Except String (Option ℚ) :=
  match r.policy.attrs key with
  | some (.num val) => do
    let minv ← pyMinList nv
    let maxv ← pyMaxList nv
    if maxv = minv then pure (some (1 / 2))
    else do
      let norm ← qdivE (val - minv) (maxv - minv)
      pure (some (if norm < 0 then 0 else if norm > 1 then 1 else norm))
  | _ => pure none

/-- Embedding of `_aggregate_variance`: mean of the positions, then sum
of squared deviations. -/
def aggregateVariance (vs : List ℚ) : Except String ℚ := do
  let mean ← qdivE (vs.foldl (· + ·) 0) (vs.length : ℚ)
  pure ((vs.map (fun v => (v - mean) ^ 2)).foldl (· + ·) 0)

/-- Embedding of `_default_balance_score`: collect the defined
positions over the numeric dimensions, score 0.0 when none remain. -/
def defaultBalanceScore (schema : Schema) (r : AResult) : Except String ℚ := do
  let positions ← (iterNumericDimensions schema).foldlM
    (fun (acc : List ℚ) kv => do
      let pos ← computeDimensionPosition r kv.1 kv.2
      pure (match pos with | some p => acc ++ [p] | none => acc)) []
  if positions = [] then pure 0
  else aggregateVariance positions

/-- Python `min(results, key=...)`: first-seen element wins ties, the
key function runs on every element (and may raise). -/
def pyMinBy {α : Type} (score : α → Except String ℚ) : List α → Except String α
  | [] => .error "ValueError: min() arg is an empty sequence"
  | x :: xs => do
    let sx ← score x
    let best ← xs.foldlM
      (fun (acc : α × ℚ) y => do
        let sy ← score y
        if sy < acc.2 then pure (y, sy) else pure acc) (x, sx)
    pure best.1

/-- Embedding of `ResultAnalyzer.balanced`: first result when the
schema is empty, otherwise the minimum under the balance score. -/
def balanced (schema : Schema) (results : List AResult) : Except String AResult :=
  if schema = [] then
    match results with
    | [] => .error "IndexError: list index out of range"
    | r :: _ => .ok r
  else pyMinBy (defaultBalanceScore schema) results

/-- Python `statistics.median`: sort, middle element (odd length) or
mean of the two middle elements (even length). -/
def pyMedian (xs : List ℚ) : Except String ℚ :=
  let sorted := xs.mergeSort (fun a b => a ≤ b)
  let n := xs.length
  if n = 0 then .error "StatisticsError: no median for empty data"
  else if n % 2 = 1 then .ok (sorted.getD (n / 2) 0)
  else .ok ((sorted.getD (n / 2 - 1) 0 + sorted.getD (n / 2) 0) / 2)

/-- Population variance (`statistics.pstdev` before the square root);
only evaluated by the code for two or more samples. -/
def pvariance (xs : List ℚ) : ℚ :=
  let n : ℚ := xs.length
  let mean := xs.foldl (· + ·) 0 / n
  (xs.map (fun x => (x - mean) ^ 2)).foldl (· + ·) 0 / n

/-- The `BenchmarkResult` dataclass after `__post_init__` (engine.py). -/
structure BenchResult (α : Type) where
  policy : α
  times : List ℚ
  target_ms : Int
  median : ℚ
  minTime : ℚ
  maxTime : ℚ
  stddev : ℚ
  delta : ℚ

/-- Embedding of `BenchmarkResult.__post_init__`: derive median, min,
max, guarded stddev and guarded percent delta.  `sqrtFn` is the trusted
square root inside `statistics.pstdev`. -/
def mkBenchmarkResult {α : Type} (sqrtFn : ℚ → ℚ) (policy : α)
    (times : List ℚ) (target_ms : Int) : Except String (BenchResult α) := do
  let med ← pyMedian times
  let mn ← pyMinList times
  let mx ← pyMaxList times
  let sd := if times.length > 1 then sqrtFn (pvariance times) else 0
  let dl := if target_ms ≠ 0 then (med - (target_ms : ℚ)) / (target_ms : ℚ) * 100 else 0
  pure ⟨policy, times, target_ms, med, mn, mx, sd, dl⟩

/-! ### Password validator (password/validator.py, password/policy.py) -/

/-- Password complexity policy fields read by the validator. -/
structure PasswordPolicy where
  min_length : Nat := 8
  require_upper : Bool := true
  require_lower : Bool := true
  require_digit : Bool := true
  require_special : Bool := true

/-- Class constant `PASSWORD_MAX_LENGTH`. -/
def PASSWORD_MAX_LENGTH : Nat := 4096

/-- Regex class `[A-Z]`. -/
def isUpperAZ (c : Char) : Bool := 'A' ≤ c && c ≤ 'Z'

/-- Regex class `[a-z]`. -/
def isLowerAZ (c : Char) : Bool := 'a' ≤ c && c ≤ 'z'

/-- Regex class `\d` (ASCII model). -/
def isDigit09 (c : Char) : Bool := '0' ≤ c && c ≤ '9'

/-- Regex class `[^A-Za-z0-9]`. -/
def isSpecialChar (c : Char) : Bool := !(isUpperAZ c || isLowerAZ c || isDigit09 c)

/-- Embedding of `PasswordValidator.validate`: the first violated check
in source order produces its message, `none` means no exception. -/
def validate (pol : PasswordPolicy) (password : String) : Option String :=
  if password.length < pol.min_length then
    some ("Password must be at least " ++ toString pol.min_length ++ " characters long.")
  else if password.length > PASSWORD_MAX_LENGTH then
    some ("Password too long (max " ++ toString PASSWORD_MAX_LENGTH ++ " characters).")
  else if pol.require_upper && !password.data.any isUpperAZ then
    some "Password must contain at least one uppercase letter."
  else if pol.require_lower && !password.data.any isLowerAZ then
    some "Password must contain at least one lowercase letter."
  else if pol.require_digit && !password.data.any isDigit09 then
    some "Password must contain at least one digit."
  else if pol.require_special && !password.data.any isSpecialChar then
    some "Password must contain at least one special character."
  else none

/-- The validator's rules, in the order named by the specification. -/
inductive PwRule where
  | length
  | upper
  | lower
  | digit
  | special
deriving DecidableEq

/-- The fixed rule order of the specification. -/
def ruleOrder : List PwRule := [.length, .upper, .lower, .digit, .special]

/-- Whether a rule is enabled by the policy (length always is). -/
def ruleEnabled (pol : PasswordPolicy) : PwRule → Bool
  | .length => true
  | .upper => pol.require_upper
  | .lower => pol.require_lower
  | .digit => pol.require_digit
  | .special => pol.require_special

/-- Whether a password satisfies a rule. -/
def ruleSatisfied (pol : PasswordPolicy) (password : String) : PwRule → Bool
  | .length => pol.min_length ≤ password.length && password.length ≤ PASSWORD_MAX_LENGTH
  | .upper => password.data.any isUpperAZ
  | .lower => password.data.any isLowerAZ
  | .digit => password.data.any isDigit09
  | .special => password.data.any isSpecialChar

/-- The user-visible message naming a violated rule and its threshold. -/
def ruleMessage (pol : PasswordPolicy) (password : String) : PwRule → String
  | .length =>
    if password.length < pol.min_length then
      "Password must be at least " ++ toString pol.min_length ++ " characters long."
    else
      "Password too long (max " ++ toString PASSWORD_MAX_LENGTH ++ " characters)."
  | .upper => "Password must contain at least one uppercase letter."
  | .lower => "Password must contain at least one lowercase letter."
  | .digit => "Password must contain at least one digit."
  | .special => "Password must contain at least one special character."

/-- Modelled from the claim's words: check the enabled rules in the
fixed order and report the first violated one. -/
def validateSpec (pol : PasswordPolicy) (password : String) : Option String :=
  ruleOrder.findSome? (fun r =>
    if ruleEnabled pol r && !ruleSatisfied pol password r then
      some (ruleMessage pol password r)
    else none)

/-! ### Specification-side definitions used to state the claims -/

/-- Cyclic token character `token[n % len(token)]`. -/
def cycChar (token : List Char) (n : Nat) : Char :=
  token.getD (n % token.length) 'a'

/-- Closed form of the interleave transformation: every password
character in order, and after each `f`-th one (the `k`-th insertion
point) exactly one token character, cycling `t[0], t[1], …` modulo the
token length. -/
def interleaveSpecChars (token : List Char) (f : Nat) (password : List Char) : List Char :=
  password.enum.flatMap (fun ic =>
    ic.2 :: (if (ic.1 + 1) % f = 0 then [cycChar token ((ic.1 + 1) / f - 1)] else []))

/-- Every case variant of the size suffixes named by the claim, with
the multiplier each one denotes. -/
def sizeSuffixTable : List (List Char × Int) :=
  [([], 1), (['b'], 1), (['B'], 1),
   (['k'], 1024), (['K'], 1024),
   (['k', 'b'], 1024), (['k', 'B'], 1024), (['K', 'b'], 1024), (['K', 'B'], 1024),
   (['m'], 1024 * 1024), (['M'], 1024 * 1024),
   (['m', 'b'], 1024 * 1024), (['m', 'B'], 1024 * 1024),
   (['M', 'b'], 1024 * 1024), (['M', 'B'], 1024 * 1024),
   (['g'], 1024 * 1024 * 1024), (['G'], 1024 * 1024 * 1024),
   (['g', 'b'], 1024 * 1024 * 1024), (['g', 'B'], 1024 * 1024 * 1024),
   (['G', 'b'], 1024 * 1024 * 1024), (['G', 'B'], 1024 * 1024 * 1024)]

/-- The regex class `[0-9]`, as the explicit character list. -/
def digitChars : List Char :=
  ['0', '1', '2', '3', '4', '5', '6', '7', '8', '9']

/-! ## Theorems -/

/-- C3: for every password and every configuration outcome, a
`PepperError` raised while building the strategy (unknown PEPPER_MODE,
missing HMAC key, unsupported digest) — and likewise a failure of the
config-parsing step — is absorbed by the pipeline: the noop strategy is
applied and `apply_pepper` returns the password unchanged instead of
aborting. -/
theorem apply_pepper_failure_returns_password
    (hmacHex : String → String → String → String) (password : String) :
    (∀ cfg e, build_pepper_strategy cfg = .error e →
      apply_pepper hmacHex password (.ok cfg) = password) ∧
    (∀ msg, apply_pepper hmacHex password (.error msg) = password) := by
  constructor
  · intro cfg e h
    have hc : cachedStrategy (.ok cfg) = .noop := by
      simp [cachedStrategy, h]
    unfold apply_pepper
    rw [hc]
    by_cases hp : password = "" <;> simp [hp, PepperStrategy.applyS]
  · intro msg
    have hc : cachedStrategy (Except.error msg) = .noop := by
      simp [cachedStrategy]
    unfold apply_pepper
    rw [hc]
    by_cases hp : password = "" <;> simp [hp, PepperStrategy.applyS]

/-- Witness for C3: a concrete unknown mode, a missing HMAC key and an
unsupported digest each make the builder fail, and `apply_pepper`
returns the password unchanged on all three. -/
theorem apply_pepper_failure_returns_password_witness :
    build_pepper_strategy { mode := "rot13" } =
      .error (.unknownStrategy "Unknown PEPPER_MODE 'rot13'") ∧
    build_pepper_strategy { mode := "hmac" } =
      .error (.configError "PEPPER_HMAC_KEY required for hmac mode") ∧
    build_pepper_strategy { mode := "hmac", hmac_key := "k0123456", hmac_algo := "whirlpoolx" } =
      .error (.constructionError "Unsupported HMAC algorithm 'whirlpoolx'") ∧
    apply_pepper (fun _ _ pw => pw) "Secret123!" (.ok { mode := "rot13" }) = "Secret123!" ∧
    apply_pepper (fun _ _ pw => pw) "Secret123!" (.ok { mode := "hmac" }) = "Secret123!" ∧
    apply_pepper (fun _ _ pw => pw) "Secret123!"
      (.ok { mode := "hmac", hmac_key := "k0123456", hmac_algo := "whirlpoolx" }) = "Secret123!" :=
  ⟨by rfl, by rfl, by rfl,
   (apply_pepper_failure_returns_password _ "Secret123!").1 _ _ (by rfl),
   (apply_pepper_failure_returns_password _ "Secret123!").1 _ _ (by rfl),
   (apply_pepper_failure_returns_password _ "Secret123!").1 _ _ (by rfl)⟩

/-- C2 counterexample: the hashing registry silently keeps the existing
binding when a different class re-uses a key (no conflict error), and
the core registry raises `RegistryConflictError` even when the exact
same class object is registered twice. -/
theorem registry_claim_counterexample :
    hashingRegister (hashingRegister [] "demo" 1) "demo" 2 = hashingRegister [] "demo" 1 ∧
    (hashingRegister (hashingRegister [] "demo" 1) "demo" 2).lookup "demo" = some 1 ∧
    coreRegister "algorithm" [] "demo" 1 = .ok [("demo", 1)] ∧
    coreRegister "algorithm" [("demo", 1)] "demo" 1 =
      .error (.conflict "algorithm 'demo' already registered.") := by
  refine ⟨by decide, by decide, by rfl, by rfl⟩

/-- C2 amended: in the hashing registry any re-registration under a
bound key — same or different class — is a no-op that keeps the
existing binding and raises nothing, while the core registry raises
`RegistryConflictError` for any re-registration under a bound key, the
exact same class included; fresh keys are appended by both. -/
theorem register_amended (name key : String) (reg : RegistryMap) (c₁ c₂ : ClassId) :
    ((reg.lookup (pyLower key)).isSome →
      hashingRegister reg key c₁ = reg ∧
      coreRegister name reg key c₂ =
        .error (.conflict (name ++ " '" ++ pyLower key ++ "' already registered."))) ∧
    (reg.lookup (pyLower key) = none →
      hashingRegister reg key c₁ = reg ++ [(pyLower key, c₁)] ∧
      coreRegister name reg key c₂ = .ok (reg ++ [(pyLower key, c₂)])) := by
  unfold hashingRegister coreRegister
  constructor
  · intro h
    simp [h]
  · intro h
    simp [h]

/-- Witness for C2 amended: both halves applied on concrete registries. -/
theorem register_amended_witness :
    (([("demo", 5)] : RegistryMap).lookup (pyLower "Demo")).isSome ∧
    hashingRegister [("demo", 5)] "Demo" 7 = [("demo", 5)] ∧
    coreRegister "algorithm" [("demo", 5)] "Demo" 7 =
      .error (.conflict "algorithm 'demo' already registered.") ∧
    ([] : RegistryMap).lookup (pyLower "Demo") = none ∧
    hashingRegister [] "Demo" 7 = [("demo", 7)] :=
  ⟨by decide,
   ((register_amended "algorithm" "Demo" [("demo", 5)] 7 7).1 (by decide)).1,
   ((register_amended "algorithm" "Demo" [("demo", 5)] 7 7).1 (by decide)).2,
   by decide,
   ((register_amended "algorithm" "Demo" [] 7 7).2 (by rfl)).1⟩

/-- C5 counterexample: at `time_cost = 12`, `memory_cost = 98304`,
`parallelism = 1` with a too-slow measurement, the code decrements
`time_cost` even though `memory_cost` is still above its 65536 floor
(the claim's reading would halve memory first). -/
theorem calibrateStep_counterexample :
    calibrateStep 4 12 524288 true 180 320 ⟨12, 98304, 1⟩ 400 = .adjust ⟨11, 98304, 1⟩ ∧
    calibrateStepClaim 4 12 524288 180 320 ⟨12, 98304, 1⟩ 400 = .adjust ⟨12, 65536, 1⟩ ∧
    calibrateStep 4 12 524288 true 180 320 ⟨12, 98304, 1⟩ 400 ≠
      calibrateStepClaim 4 12 524288 180 320 ⟨12, 98304, 1⟩ 400 := by
  refine ⟨by decide, by decide, by decide⟩

/-- C5 amended: with parallelism enabled, every loop iteration follows
the claimed lever discipline except that the de-escalation memory lever
is considered exhausted already at `memory_cost ≤ 2 * 65536`: in-window
stops, escalation goes time-cost (to its ceiling), then memory (times
1.5, capped), then parallelism (to `min 4 cpu_count`), de-escalation
goes memory (halved, floored at 65536, only while above `2 * 65536`),
then time-cost (floored at 2), then parallelism (floored at 1), and
`limited` when every lever is exhausted. -/
theorem calibrateStep_matches_amended_claim
    (cpu_count max_time_cost max_memory_kib : Nat)
    (target_lower_ms target_upper_ms : ℚ) (st : CalState) (elapsed : ℚ) :
    calibrateStep cpu_count max_time_cost max_memory_kib true
        target_lower_ms target_upper_ms st elapsed =
      calibrateStepClaimAmended cpu_count max_time_cost max_memory_kib
        target_lower_ms target_upper_ms st elapsed := by
  unfold calibrateStep calibrateStepClaimAmended
  have hpar : (st.parallelism < cpu_count ∧ st.parallelism < 4) ↔
      st.parallelism < min 4 cpu_count := by
    omega
  have hmem : (st.memory_cost > 65536 * 2) ↔ (st.memory_cost > 2 * 65536) := by
    omega
  simp only [true_and, hpar, hmem]

/-- Invariant of the interleave loop: started at index `i` with the
token counter at `i / f` insertions, it emits each remaining character
followed, after every `f`-th position, by the cyclic token character of
that insertion point. -/
theorem interleaveChars_spec (token : List Char) (f : Nat) :
    ∀ (rest : List Char) (i : Nat),
      interleaveChars token f rest i (i / f) =
        (rest.enumFrom i).flatMap (fun ic =>
          ic.2 :: (if (ic.1 + 1) % f = 0 then [cycChar token ((ic.1 + 1) / f - 1)] else [])) := by
  intro rest
  induction rest with
  | nil => intro i; simp [interleaveChars]
  | cons c cs ih =>
    intro i
    by_cases h : (i + 1) % f = 0
    · have hdvd : f ∣ (i + 1) := Nat.dvd_of_mod_eq_zero h
      have hsucc : (i + 1) / f = i / f + 1 := by
        rw [Nat.succ_div]
        simp [hdvd]
      have hrec := ih (i + 1)
      rw [hsucc] at hrec
      simp only [interleaveChars, if_pos h, List.enumFrom, List.flatMap_cons, if_pos h]
      rw [hrec]
      simp [cycChar, hsucc]
    · have hndvd : ¬ f ∣ (i + 1) := by
        rw [Nat.dvd_iff_mod_eq_zero]
        exact h
      have hsucc : (i + 1) / f = i / f := by
        rw [Nat.succ_div]
        simp [hndvd]
      have hrec := ih (i + 1)
      rw [hsucc] at hrec
      simp only [interleaveChars, if_neg h, List.enumFrom, List.flatMap_cons, if_neg h]
      rw [hrec]
      rfl

/-- C10: with a non-empty token and positive frequency, interleave
emits every password character in original order and, after every
`n`-th one, exactly one token character cycling `t[0], t[1], …` modulo
`len(t)`; with an empty token or non-positive frequency the password is
returned unchanged. -/
theorem InterleaveStrategy_apply_claim (token : String) (frequency : Int) (password : String) :
    (token.data ≠ [] → 0 < frequency →
      ((InterleaveStrategy.mk token frequency).apply password).data =
        interleaveSpecChars token.data frequency.toNat password.data) ∧
    (token.data = [] ∨ frequency ≤ 0 →
      (InterleaveStrategy.mk token frequency).apply password = password) := by
  constructor
  · intro ht hf
    unfold InterleaveStrategy.apply
    rw [if_neg (by
      push_neg
      refine ⟨ht, ?_⟩
      show 0 < frequency
      omega)]
    show interleaveChars token.data frequency.toNat password.data 0 0 =
      interleaveSpecChars token.data frequency.toNat password.data
    have h := interleaveChars_spec token.data frequency.toNat password.data 0
    rw [Nat.zero_div] at h
    rw [h]
    rfl
  · intro h
    unfold InterleaveStrategy.apply
    rw [if_pos h]

/-- Witness for C10: a concrete interleave with cycling token and a
concrete degenerate frequency. -/
theorem InterleaveStrategy_apply_claim_witness :
    ("ab".data ≠ [] ∧ (0 : Int) < 2) ∧
    ((InterleaveStrategy.mk "ab" 2).apply "abcdef").data =
      interleaveSpecChars "ab".data (2 : Int).toNat "abcdef".data ∧
    (InterleaveStrategy.mk "ab" 0).apply "abcdef" = "abcdef" :=
  ⟨⟨by decide, by decide⟩,
   (InterleaveStrategy_apply_claim "ab" 2 "abcdef").1 (by decide) (by decide),
   (InterleaveStrategy_apply_claim "ab" 0 "abcdef").2 (Or.inr (by decide))⟩

/-- C1: under the trusted-library contract for the opaque backend, and
for a pepper transform that keeps a non-empty password non-empty and
separates `p` from `p ++ "x"` (true of every built-in strategy, with
HMAC's collision-freedom part of the trusted-crypto boundary), the
facade round-trips: `verify (hash p) p = true` and
`verify (hash p) (p ++ "x") = false` for every non-empty `p`. -/
theorem algorithm_roundtrip (B : RawBackend) (pepper : String → String) (p : String)
    (hB : IdealBackend B) (hp : p ≠ "") (hpep : pepper p ≠ "")
    (hsep : pepper p ≠ pepper (p ++ "x")) :
    ∃ h, Algorithm.hashF B pepper p = .ok h ∧
      Algorithm.verifyF B pepper h p = true ∧
      Algorithm.verifyF B pepper h (p ++ "x") = false := by
  obtain ⟨hne, hver⟩ := hB
  have hpx : (p ++ "x") ≠ "" := by
    intro hq
    have := congrArg String.data hq
    simp at this
  have happ : applyPepperFn pepper p = pepper p := by
    unfold applyPepperFn
    rw [if_neg hp]
  have happx : applyPepperFn pepper (p ++ "x") = pepper (p ++ "x") := by
    unfold applyPepperFn
    rw [if_neg hpx]
  refine ⟨B.rawHash (pepper p), ?_, ?_, ?_⟩
  · unfold Algorithm.hashF hash_raw
    rw [if_neg hp, happ, if_neg hpep]
  · unfold Algorithm.verifyF verify_raw
    rw [if_neg (by push_neg; exact ⟨hne _, hp⟩), happ,
      if_neg (by push_neg; exact ⟨hne _, hpep⟩), hver]
    simp
  · unfold Algorithm.verifyF verify_raw
    rw [if_neg (by push_neg; exact ⟨hne _, hpx⟩), happx]
    by_cases hpe : pepper (p ++ "x") = ""
    · rw [if_pos (Or.inr hpe)]
    · rw [if_neg (by push_neg; exact ⟨hne _, hpe⟩), hver]
      simp [hsep]

/-- Witness for C1: a concrete ideal backend (prepend a marker
character) with the identity pepper on the password `"a"`. -/
theorem algorithm_roundtrip_witness :
    IdealBackend
      ⟨fun s => String.mk ('#' :: s.data), fun h s => decide (h = String.mk ('#' :: s.data))⟩ ∧
    ∃ h,
      Algorithm.hashF
          ⟨fun s => String.mk ('#' :: s.data), fun h s => decide (h = String.mk ('#' :: s.data))⟩
          id "a" = .ok h ∧
      Algorithm.verifyF
          ⟨fun s => String.mk ('#' :: s.data), fun h s => decide (h = String.mk ('#' :: s.data))⟩
          id h "a" = true ∧
      Algorithm.verifyF
          ⟨fun s => String.mk ('#' :: s.data), fun h s => decide (h = String.mk ('#' :: s.data))⟩
          id h ("a" ++ "x") = false := by
  have hIdeal : IdealBackend
      ⟨fun s => String.mk ('#' :: s.data), fun h s => decide (h = String.mk ('#' :: s.data))⟩ := by
    constructor
    · intro s hq
      have := congrArg String.data hq
      simp at this
    · intro s t
      rw [decide_eq_decide]
      cases s with
      | mk ds =>
        cases t with
        | mk dt => simp [String.ext_iff]
  exact ⟨hIdeal,
    algorithm_roundtrip _ id "a" hIdeal (by decide) (by decide) (by decide)⟩

/-- C9: for every non-empty timing-sample list the `BenchmarkResult`
construction succeeds, the derived stddev is exactly 0 for a single
sample, and the derived percent delta is exactly 0 for a zero target. -/
theorem mkBenchmarkResult_claim {α : Type} (sqrtFn : ℚ → ℚ) (pol : α)
    (times : List ℚ) (target_ms : Int) (h : times ≠ []) :
    ∃ r, mkBenchmarkResult sqrtFn pol times target_ms = .ok r ∧
      (times.length = 1 → r.stddev = 0) ∧
      (target_ms = 0 → r.delta = 0) := by
  match times, h with
  | x :: xs, _ =>
    have hmed : ∃ m, pyMedian (x :: xs) = .ok m := by
      unfold pyMedian
      dsimp only
      split_ifs with h1 h2
      · simp at h1
      · exact ⟨_, rfl⟩
      · exact ⟨_, rfl⟩
    obtain ⟨m, hm⟩ := hmed
    have hall : mkBenchmarkResult sqrtFn pol (x :: xs) target_ms =
        .ok ⟨pol, x :: xs, target_ms, m, xs.foldl min x, xs.foldl max x,
          (if (x :: xs).length > 1 then sqrtFn (pvariance (x :: xs)) else 0),
          (if target_ms ≠ 0 then (m - (target_ms : ℚ)) / (target_ms : ℚ) * 100 else 0)⟩ := by
      unfold mkBenchmarkResult
      rw [hm]
      rfl
    refine ⟨_, hall, ?_, ?_⟩
    · intro hlen
      show (if (x :: xs).length > 1 then sqrtFn (pvariance (x :: xs)) else 0) = 0
      rw [if_neg (by omega)]
    · intro ht
      show (if target_ms ≠ 0 then (m - (target_ms : ℚ)) / (target_ms : ℚ) * 100 else 0) = 0
      rw [if_neg (by omega)]

/-- Witness for C9: a single 5 ms sample with target 0. -/
theorem mkBenchmarkResult_claim_witness :
    ∃ r, mkBenchmarkResult (fun q => q) (0 : Nat) [(5 : ℚ)] 0 = .ok r ∧
      (([(5 : ℚ)].length = 1) → r.stddev = 0) ∧
      (((0 : Int) = 0) → r.delta = 0) :=
  mkBenchmarkResult_claim (fun q => q) 0 [(5 : ℚ)] 0 (by decide)

/-- Dimensions yielded by `_iter_numeric_dimensions` carry a non-empty
numeric candidate list. -/
theorem iterNumericDimensions_nonempty {schema : Schema} {kv : String × List ℚ}
    (h : kv ∈ iterNumericDimensions schema) : kv.2 ≠ [] := by
  unfold iterNumericDimensions at h
  rw [List.mem_filterMap] at h
  obtain ⟨ab, _, hf⟩ := h
  dsimp only at hf
  split_ifs at hf with h1 h2
  cases hf
  simpa using h2

/-- A dimension position computation never raises on a non-empty
candidate list (the single-valued guard prevents the division). -/
theorem computeDimensionPosition_ok (r : AResult) (k : String) (c : ℚ) (cs : List ℚ) :
    ∃ o, computeDimensionPosition r k (c :: cs) = .ok o := by
  unfold computeDimensionPosition
  cases hattr : r.policy.attrs k with
  | none => exact ⟨none, rfl⟩
  | some v =>
    cases v with
    | other s => exact ⟨none, rfl⟩
    | num val =>
      show ∃ o, (do
        let minv ← pyMinList (c :: cs)
        let maxv ← pyMaxList (c :: cs)
        if maxv = minv then pure (some (1 / 2))
        else do
          let norm ← qdivE (val - minv) (maxv - minv)
          pure (some (if norm < 0 then 0 else if norm > 1 then 1 else norm))) = .ok o
      show ∃ o, (if cs.foldl max c = cs.foldl min c then
          (pure (some (1 / 2)) : Except String (Option ℚ))
        else do
          let norm ← qdivE (val - cs.foldl min c) (cs.foldl max c - cs.foldl min c)
          pure (some (if norm < 0 then 0 else if norm > 1 then 1 else norm))) = .ok o
      by_cases heq : cs.foldl max c = cs.foldl min c
      · exact ⟨some (1 / 2), by rw [if_pos heq]; rfl⟩
      · rw [if_neg heq]
        unfold qdivE
        rw [if_neg (sub_ne_zero.mpr heq)]
        exact ⟨_, rfl⟩

/-- An `Except` fold whose step always succeeds succeeds. -/
theorem foldlM_ok {β : Type} (g : List ℚ → β → Except String (List ℚ)) (l : List β)
    (hg : ∀ acc b, b ∈ l → ∃ y, g acc b = .ok y) :
    ∀ acc, ∃ res, l.foldlM g acc = .ok res := by
  induction l with
  | nil => intro acc; exact ⟨acc, rfl⟩
  | cons b bs ih =>
    intro acc
    obtain ⟨y, hy⟩ := hg acc b (by simp)
    obtain ⟨res, hres⟩ := ih (fun acc2 b2 hb2 => hg acc2 b2 (by simp [hb2])) y
    refine ⟨res, ?_⟩
    rw [List.foldlM_cons, hy]
    exact hres

/-- The default balance score never raises. -/
theorem defaultBalanceScore_ok (schema : Schema) (r : AResult) :
    ∃ q, defaultBalanceScore schema r = .ok q := by
  unfold defaultBalanceScore
  have hstep : ∀ (acc : List ℚ) (kv : String × List ℚ), kv ∈ iterNumericDimensions schema →
      ∃ y, (do
        let pos ← computeDimensionPosition r kv.1 kv.2
        pure (match pos with | some p => acc ++ [p] | none => acc) :
          Except String (List ℚ)) = .ok y := by
    intro acc kv hkv
    have hne := iterNumericDimensions_nonempty hkv
    obtain ⟨c, cs, hcs⟩ : ∃ c cs, kv.2 = c :: cs := by
      cases hkv2 : kv.2 with
      | nil => exact absurd hkv2 hne
      | cons c cs => exact ⟨c, cs, rfl⟩
    obtain ⟨o, ho⟩ := computeDimensionPosition_ok r kv.1 c cs
    rw [hcs, ho]
    exact ⟨_, rfl⟩
  obtain ⟨positions, hpos⟩ := foldlM_ok _ (iterNumericDimensions schema) hstep []
  rw [hpos]
  show ∃ q, (if positions = [] then pure 0 else aggregateVariance positions) = .ok q
  by_cases hp : positions = []
  · exact ⟨0, by rw [if_pos hp]; rfl⟩
  · rw [if_neg hp]
    unfold aggregateVariance qdivE
    have hlen : ((positions.length : ℚ)) ≠ 0 := by
      have : positions.length ≠ 0 := by
        simpa [List.length_eq_zero] using hp
      exact_mod_cast this
    rw [if_neg hlen]
    exact ⟨_, rfl⟩

/-- Python's keyed `min` returns an element of the list when every key
evaluation succeeds. -/
theorem pyMinBy_mem {α : Type} (score : α → Except String ℚ) (l : List α)
    (hl : l ≠ []) (hs : ∀ x ∈ l, ∃ q, score x = .ok q) :
    ∃ r, pyMinBy score l = .ok r ∧ r ∈ l := by
  match l, hl with
  | x :: xs, _ =>
    obtain ⟨sx, hsx⟩ := hs x (by simp)
    have main : ∀ (ys : List α), (∀ y ∈ ys, ∃ q, score y = .ok q) →
        ∀ (acc : α × ℚ),
        ∃ res, (ys.foldlM (fun acc y => do
            let sy ← score y
            if sy < acc.2 then pure (y, sy) else pure acc) acc) = .ok res ∧
          (res.1 = acc.1 ∨ res.1 ∈ ys) := by
      intro ys
      induction ys with
      | nil => intro _ acc; exact ⟨acc, rfl, Or.inl rfl⟩
      | cons y ys ih =>
        intro hys acc
        obtain ⟨sy, hsy⟩ := hys y (by simp)
        have hys2 : ∀ z ∈ ys, ∃ q, score z = .ok q := fun z hz => hys z (by simp [hz])
        by_cases hlt : sy < acc.2
        · obtain ⟨res, hres, hmem⟩ := ih hys2 (y, sy)
          refine ⟨res, ?_, ?_⟩
          · rw [List.foldlM_cons, hsy]
            show (if sy < acc.2 then (pure (y, sy) : Except String (α × ℚ)) else pure acc) >>=
              (fun a => ys.foldlM _ a) = .ok res
            rw [if_pos hlt]
            exact hres
          · rcases hmem with h | h
            · exact Or.inr (by simp [h])
            · exact Or.inr (by simp [h])
        · obtain ⟨res, hres, hmem⟩ := ih hys2 acc
          refine ⟨res, ?_, ?_⟩
          · rw [List.foldlM_cons, hsy]
            show (if sy < acc.2 then (pure (y, sy) : Except String (α × ℚ)) else pure acc) >>=
              (fun a => ys.foldlM _ a) = .ok res
            rw [if_neg hlt]
            exact hres
          · rcases hmem with h | h
            · exact Or.inl h
            · exact Or.inr (by simp [h])
    obtain ⟨res, hres, hmem⟩ :=
      main xs (fun z hz => hs z (by simp [hz])) (x, sx)
    refine ⟨res.1, ?_, ?_⟩
    · unfold pyMinBy
      dsimp only
      rw [hsx]
      show (xs.foldlM (fun acc y => do
          let sy ← score y
          if sy < acc.2 then pure (y, sy) else pure acc) (x, sx)) >>=
        (fun best => (pure best.1 : Except String α)) = .ok res.1
      rw [hres]
      rfl
    · rcases hmem with h | h
      · simp [h]
      · simp [h]

/-- C8: for every non-empty result list (and any schema, in particular
one containing a single-candidate dimension), `balanced` never raises
and returns an element of the input list; a single-candidate dimension
contributes the neutral position 0.5 instead of dividing by zero. -/
theorem balanced_claim :
    (∀ (schema : Schema) (results : List AResult), results ≠ [] →
      ∃ r, balanced schema results = .ok r ∧ r ∈ results) ∧
    (∀ (r : AResult) (key : String) (v val : ℚ),
      r.policy.attrs key = some (.num val) →
      computeDimensionPosition r key [v] = .ok (some (1 / 2))) := by
  constructor
  · intro schema results hres
    unfold balanced
    by_cases hsch : schema = []
    · rw [if_pos hsch]
      match results, hres with
      | r :: rs, _ => exact ⟨r, rfl, by simp⟩
    · rw [if_neg hsch]
      exact pyMinBy_mem _ _ hres (fun x _ => defaultBalanceScore_ok schema x)
  · intro r key v val hattr
    unfold computeDimensionPosition
    rw [hattr]
    show (if ([] : List ℚ).foldl max v = ([] : List ℚ).foldl min v then
        (pure (some (1 / 2)) : Except String (Option ℚ))
      else do
        let norm ← qdivE (val - ([] : List ℚ).foldl min v)
          (([] : List ℚ).foldl max v - ([] : List ℚ).foldl min v)
        pure (some (if norm < 0 then 0 else if norm > 1 then 1 else norm))) =
      Except.ok (some (1 / 2))
    rw [if_pos (show List.foldl max v [] = List.foldl min v [] from rfl)]
    rfl

/-- Witness for C8: the schema `a ↦ [1,2,3], b ↦ [10]` of the claim
with one result, and the neutral position of the single-valued
dimension. -/
theorem balanced_claim_witness :
    (∃ r, balanced
        [("a", [.num 1, .num 2, .num 3]), ("b", [.num 10])]
        [⟨⟨fun k => if k = "a" then some (.num 2) else some (.num 10)⟩, 100⟩] = .ok r ∧
      r ∈ [(⟨⟨fun k => if k = "a" then some (.num 2) else some (.num 10)⟩, 100⟩ : AResult)]) ∧
    computeDimensionPosition
      ⟨⟨fun k => if k = "a" then some (.num 2) else some (.num 10)⟩, 100⟩ "b" [10] =
      .ok (some (1 / 2)) :=
  ⟨balanced_claim.1 _ _ (by simp),
   balanced_claim.2 _ "b" 10 10 (by simp)⟩

/-- C7: `validate` checks the rules in the fixed order length, upper,
lower, digit, special (each class rule only when enabled), reporting
the first violated rule with the message naming it and its threshold,
and reports nothing when every enabled rule is satisfied. -/
theorem validate_claim :
    (∀ (pol : PasswordPolicy) (password : String),
      validate pol password = validateSpec pol password) ∧
    (∀ (pol : PasswordPolicy) (password : String),
      (∀ rule, ruleEnabled pol rule = true → ruleSatisfied pol password rule = true) →
      validate pol password = none) := by
  have main : ∀ (pol : PasswordPolicy) (password : String),
      validate pol password = validateSpec pol password := by
    intro pol pw
    unfold validate validateSpec ruleOrder
    simp only [List.findSome?_cons, List.findSome?_nil]
    unfold ruleEnabled ruleSatisfied ruleMessage
    by_cases h1 : pw.length < pol.min_length
    · have hc : (true && !(decide (pol.min_length ≤ pw.length) &&
          decide (pw.length ≤ PASSWORD_MAX_LENGTH))) = true := by
        simp
        omega
      simp only [if_pos h1, if_pos hc]
    · by_cases h2 : pw.length > PASSWORD_MAX_LENGTH
      · have hc : (true && !(decide (pol.min_length ≤ pw.length) &&
            decide (pw.length ≤ PASSWORD_MAX_LENGTH))) = true := by
          simp
          omega
        simp only [if_neg h1, if_pos h2, if_pos hc, if_neg h1]
      · have hc : ¬ ((true && !(decide (pol.min_length ≤ pw.length) &&
            decide (pw.length ≤ PASSWORD_MAX_LENGTH))) = true) := by
          simp
          omega
        simp only [if_neg h1, if_neg h2, if_neg hc]
        by_cases hcu : (pol.require_upper && !pw.data.any isUpperAZ) = true
        · simp only [if_pos hcu]
        · simp only [if_neg hcu]
          by_cases hcl : (pol.require_lower && !pw.data.any isLowerAZ) = true
          · simp only [if_pos hcl]
          · simp only [if_neg hcl]
            by_cases hcd : (pol.require_digit && !pw.data.any isDigit09) = true
            · simp only [if_pos hcd]
            · simp only [if_neg hcd]
              by_cases hcs : (pol.require_special && !pw.data.any isSpecialChar) = true
              · simp only [if_pos hcs]
              · simp only [if_neg hcs]
  refine ⟨main, ?_⟩
  intro pol pw h
  rw [main]
  unfold validateSpec
  rw [List.findSome?_eq_none_iff]
  intro r _
  by_cases he : ruleEnabled pol r
  · simp [he, h r he]
  · simp [he]

/-- Witness for C7: the spec's own examples — `"ValidPass123!"`
passes, `"NoDigits!!"` fails the digit rule first. -/
theorem validate_claim_witness :
    validate {} "ValidPass123!" = validateSpec {} "ValidPass123!" ∧
    validate {} "NoDigits!!" = validateSpec {} "NoDigits!!" ∧
    (∀ rule, ruleEnabled {} rule = true →
      ruleSatisfied {} "ValidPass123!" rule = true) ∧
    validate {} "ValidPass123!" = none :=
  ⟨validate_claim.1 {} "ValidPass123!",
   validate_claim.1 {} "NoDigits!!",
   by intro rule hr; cases rule <;> decide,
   validate_claim.2 {} "ValidPass123!" (by intro rule hr; cases rule <;> decide)⟩

/-- Dropping while `p` holds is the identity when no element satisfies
`p`. -/
theorem dropWhile_eq_self_of_all {p : Char → Bool} {l : List Char}
    (h : ∀ c ∈ l, p c = false) : l.dropWhile p = l := by
  cases l with
  | nil => rfl
  | cons c cs => simp [List.dropWhile_cons, h c (by simp)]

/-- Stripping is the identity on whitespace-free character lists. -/
theorem stripChars_eq_self {l : List Char}
    (h : ∀ c ∈ l, c.isWhitespace = false) : stripChars l = l := by
  unfold stripChars
  rw [dropWhile_eq_self_of_all h,
    dropWhile_eq_self_of_all (fun c hc => h c (List.mem_reverse.mp hc)),
    List.reverse_reverse]

/-- `takeWhile`/`dropWhile` split an all-true block followed by a
block whose head fails the predicate. -/
theorem takeWhile_append_all {p : Char → Bool} (l1 l2 : List Char)
    (h1 : ∀ c ∈ l1, p c = true)
    (h2 : ∀ c, l2.head? = some c → p c = false) :
    (l1 ++ l2).takeWhile p = l1 ∧ (l1 ++ l2).dropWhile p = l2 := by
  induction l1 with
  | nil =>
    simp only [List.nil_append]
    cases l2 with
    | nil => exact ⟨rfl, rfl⟩
    | cons c cs =>
      have hc := h2 c rfl
      exact ⟨by simp [List.takeWhile_cons, hc], by simp [List.dropWhile_cons, hc]⟩
  | cons a l1 ih =>
    have ha := h1 a (by simp)
    obtain ⟨iht, ihd⟩ := ih (fun c hc => h1 c (by simp [hc]))
    exact ⟨by simp [List.takeWhile_cons, ha, iht],
      by simp [List.dropWhile_cons, ha, ihd]⟩

/-- Digits are recognised by `Char.isDigit`. -/
theorem digitChar_isDigit {c : Char} (h : c ∈ digitChars) : c.isDigit = true := by
  fin_cases h <;> decide

/-- Digits are not whitespace. -/
theorem digitChar_not_ws {c : Char} (h : c ∈ digitChars) : c.isWhitespace = false := by
  fin_cases h <;> decide

/-- Digits are fixed by `toLower`. -/
theorem digitChar_toLower {c : Char} (h : c ∈ digitChars) : c.toLower = c := by
  fin_cases h <;> decide

/-- Digits differ from the head letters of the boolean tokens. -/
theorem digitChar_ne_alpha {c : Char} (h : c ∈ digitChars) :
    c ≠ 't' ∧ c ≠ 'f' ∧ c ≠ 'o' ∧ c ≠ 'y' ∧ c ≠ 'n' := by
  fin_cases h <;> exact ⟨by decide, by decide, by decide, by decide, by decide⟩

/-- Case analysis for the size-suffix character class. -/
theorem sizeChar_cases {c : Char} (h : isSizeChar c = true) :
    c = 'k' ∨ c = 'K' ∨ c = 'm' ∨ c = 'M' ∨ c = 'g' ∨ c = 'G' ∨ c = 'b' ∨ c = 'B' := by
  unfold isSizeChar at h
  simp only [Bool.or_eq_true, decide_eq_true_eq] at h
  tauto

/-- Size-suffix characters are not whitespace. -/
theorem sizeChar_not_ws {c : Char} (h : isSizeChar c = true) : c.isWhitespace = false := by
  rcases sizeChar_cases h with rfl | rfl | rfl | rfl | rfl | rfl | rfl | rfl <;> decide

/-- Size-suffix characters are not digits. -/
theorem sizeChar_not_digit {c : Char} (h : isSizeChar c = true) : c.isDigit = false := by
  rcases sizeChar_cases h with rfl | rfl | rfl | rfl | rfl | rfl | rfl | rfl <;> decide

/-- Core of the size-suffix behaviour: a non-empty digit block followed
by a recognised suffix parses to the digits' value times the suffix
multiplier. -/
theorem default_parse_digits_suffix (ds sfx : List Char) (m : Int)
    (hds : ds ≠ []) (hdig : ∀ c ∈ ds, c ∈ digitChars)
    (hsz : ∀ c ∈ sfx, isSizeChar c = true) (hlen : sfx.length ≤ 2)
    (hmult : suffixMult (lowerChars sfx) = some m) :
    default_parse (.str (String.mk (ds ++ sfx))) = .int ((digitsVal ds : Int) * m) := by
  have hnw : ∀ c ∈ ds ++ sfx, c.isWhitespace = false := by
    intro c hc
    rcases List.mem_append.mp hc with h | h
    · exact digitChar_not_ws (hdig c h)
    · exact sizeChar_not_ws (hsz c h)
  have hstrip : stripChars (ds ++ sfx) = ds ++ sfx := stripChars_eq_self hnw
  have hhead : ∀ c, sfx.head? = some c → Char.isDigit c = false := by
    intro c hc
    cases sfx with
    | nil => cases hc
    | cons a rest =>
      have ha : a = c := by simpa using hc
      exact ha ▸ sizeChar_not_digit (hsz a (by simp))
  obtain ⟨htake, hdrop⟩ :=
    takeWhile_append_all ds sfx (fun c hc => digitChar_isDigit (hdig c hc)) hhead
  have htry : trySize (ds ++ sfx) = some ((digitsVal ds : Int) * m) := by
    unfold trySize
    dsimp only
    rw [hstrip, htake, hdrop, if_neg hds,
      if_pos ⟨hlen, List.all_eq_true.mpr hsz⟩, hmult]
    rfl
  obtain ⟨d, ds', rfl⟩ : ∃ d ds', ds = d :: ds' := by
    cases ds with
    | nil => exact absurd rfl hds
    | cons d ds' => exact ⟨d, ds', rfl⟩
  have hd := hdig d (by simp)
  have hdlow : d.toLower = d := digitChar_toLower hd
  obtain ⟨hnt, hnf, hno, hny, hnn⟩ := digitChar_ne_alpha hd
  have hlowhead : lowerChars ((d :: ds') ++ sfx) = d :: lowerChars (ds' ++ sfx) := by
    simp [lowerChars, hdlow]
  have hne1 : ¬(lowerChars ((d :: ds') ++ sfx) = "true".data ∨
      lowerChars ((d :: ds') ++ sfx) = "on".data ∨
      lowerChars ((d :: ds') ++ sfx) = "yes".data) := by
    rw [hlowhead, show "true".data = 't' :: "rue".data from rfl,
      show "on".data = 'o' :: "n".data from rfl,
      show "yes".data = 'y' :: "es".data from rfl]
    simp [List.cons.injEq, hnt, hno, hny]
  have hne2 : ¬(lowerChars ((d :: ds') ++ sfx) = "false".data ∨
      lowerChars ((d :: ds') ++ sfx) = "off".data ∨
      lowerChars ((d :: ds') ++ sfx) = "no".data) := by
    rw [hlowhead, show "false".data = 'f' :: "alse".data from rfl,
      show "off".data = 'o' :: "ff".data from rfl,
      show "no".data = 'n' :: "o".data from rfl]
    simp [List.cons.injEq, hnf, hno, hnn]
  unfold default_parse
  dsimp only
  rw [hstrip, if_neg hne1, if_neg hne2, htry]

/-- C6: the heuristic parser turns the case-insensitive tokens
true/on/yes and false/off/no (after trimming) into booleans, leaves the
bare digit strings "1" and "0" as the integers 1 and 0, and turns a
digit string with an optional k/kb/m/mb/g/gb suffix (any case) into the
integer times 1024, 1024² or 1024³, a bare `b` or no suffix giving the
literal integer. -/
theorem default_parse_claim :
    (∀ s : String,
      (lowerChars (stripChars s.data) = "true".data ∨
       lowerChars (stripChars s.data) = "on".data ∨
       lowerChars (stripChars s.data) = "yes".data) →
      default_parse (.str s) = .bool true) ∧
    (∀ s : String,
      (lowerChars (stripChars s.data) = "false".data ∨
       lowerChars (stripChars s.data) = "off".data ∨
       lowerChars (stripChars s.data) = "no".data) →
      default_parse (.str s) = .bool false) ∧
    (default_parse (.str "1") = .int 1 ∧ default_parse (.str "0") = .int 0) ∧
    (∀ (ds sfx : List Char) (m : Int),
      ds ≠ [] → (∀ c ∈ ds, c ∈ digitChars) → (sfx, m) ∈ sizeSuffixTable →
      default_parse (.str (String.mk (ds ++ sfx))) = .int ((digitsVal ds : Int) * m)) := by
  refine ⟨?_, ?_, ⟨by decide, by decide⟩, ?_⟩
  · intro s h
    unfold default_parse
    dsimp only
    rw [if_pos h]
  · intro s h
    have hne : ¬(lowerChars (stripChars s.data) = "true".data ∨
        lowerChars (stripChars s.data) = "on".data ∨
        lowerChars (stripChars s.data) = "yes".data) := by
      rcases h with h | h | h <;> rw [h] <;> decide
    unfold default_parse
    dsimp only
    rw [if_neg hne, if_pos h]
  · intro ds sfx m hds hdig hs
    have hsound : ∀ p ∈ sizeSuffixTable,
        (∀ c ∈ p.1, isSizeChar c = true) ∧ p.1.length ≤ 2 ∧
          suffixMult (lowerChars p.1) = some p.2 := by decide
    obtain ⟨hsz, hlen, hmult⟩ := hsound (sfx, m) hs
    exact default_parse_digits_suffix ds sfx m hds hdig hsz hlen hmult

/-- Witness for C6: trimmed upper-case boolean token, a false token,
and the concrete size string `64kB`. -/
theorem default_parse_claim_witness :
    (lowerChars (stripChars " TRUE ".data) = "true".data) ∧
    default_parse (.str " TRUE ") = .bool true ∧
    default_parse (.str "off") = .bool false ∧
    ((['6', '4'] : List Char) ≠ [] ∧ ((['k', 'B'], (1024 : Int)) ∈ sizeSuffixTable)) ∧
    default_parse (.str (String.mk (['6', '4'] ++ ['k', 'B']))) =
      .int ((digitsVal ['6', '4'] : Int) * 1024) :=
  ⟨by decide,
   default_parse_claim.1 " TRUE " (Or.inl (by decide)),
   default_parse_claim.2.1 "off" (Or.inr (Or.inl (by decide))),
   ⟨by decide, by decide⟩,
   default_parse_claim.2.2.2 ['6', '4'] ['k', 'B'] 1024 (by decide) (by decide) (by decide)⟩

/-- Every element of a joined list occurs verbatim inside the joined
string. -/
theorem joinSep_mem_infix (sep : String) (l : List String) (e : String) (he : e ∈ l) :
    ∃ pre post, joinSep sep l = pre ++ e ++ post := by
  induction l with
  | nil => cases he
  | cons x xs ih =>
    rcases List.mem_cons.mp he with rfl | hmem
    · cases xs with
      | nil =>
        refine ⟨"", "", ?_⟩
        show e = ("" ++ e) ++ ""
        rw [String.append_empty, String.empty_append]
      | cons y ys =>
        refine ⟨"", sep ++ joinSep sep (y :: ys), ?_⟩
        show e ++ sep ++ joinSep sep (y :: ys) = ("" ++ e) ++ (sep ++ joinSep sep (y :: ys))
        rw [String.empty_append, String.append_assoc]
    · cases xs with
      | nil => cases hmem
      | cons y ys =>
        obtain ⟨pre, post, hpp⟩ := ih hmem
        refine ⟨x ++ sep ++ pre, post, ?_⟩
        show x ++ sep ++ joinSep sep (y :: ys) = (x ++ sep ++ pre) ++ e ++ post
        rw [hpp, ← String.append_assoc, ← String.append_assoc]

/-- C4: when the first collection phase records any problems, `build`
raises one `ConfigValidationError` whose message contains every
recorded problem (each missing required key and each conversion
failure) across all constructor parameters; and when collection and
type enforcement pass but the policy constructor's own invariant check
raises, `build` re-raises it as a `ConfigValidationError` wrapping the
cause, never as the raw exception. -/
theorem policyBuilder_claim :
    (∀ (α : Type) (src : ValueSource) (conv : PValue → Except String PValue)
        (cls : PolicyClass α) (pfx label : String),
      collectProblems src conv pfx cls.params ≠ [] →
      PolicyBuilder.build src conv cls pfx label =
        .error (.configValidation ("Errors building " ++ label ++ ": " ++
          joinSep "; " (collectProblems src conv pfx cls.params))) ∧
      ∀ e ∈ collectProblems src conv pfx cls.params,
        ∃ pre post,
          ("Errors building " ++ label ++ ": " ++
            joinSep "; " (collectProblems src conv pfx cls.params)) = pre ++ e ++ post) ∧
    (∀ (α : Type) (src : ValueSource) (conv : PValue → Except String PValue)
        (cls : PolicyClass α) (pfx label cause : String),
      collectProblems src conv pfx cls.params = [] →
      enforceErrors pfx cls.params (collectResolved src conv pfx cls.params) = [] →
      cls.construct (enforceValues pfx cls.params (collectResolved src conv pfx cls.params)) =
        .error cause →
      PolicyBuilder.build src conv cls pfx label =
        .error (.configValidation ("Invalid configuration for " ++ label ++ ": " ++ cause))) := by
  constructor
  · intro α src conv cls pfx label h
    constructor
    · unfold PolicyBuilder.build
      rw [if_pos h]
    · intro e he
      obtain ⟨pre, post, hpp⟩ := joinSep_mem_infix "; " _ e he
      refine ⟨"Errors building " ++ label ++ ": " ++ pre, post, ?_⟩
      rw [hpp, ← String.append_assoc, ← String.append_assoc]
  · intro α src conv cls pfx label cause h1 h2 h3
    unfold PolicyBuilder.build
    rw [if_neg (by simp [h1])]
    dsimp only
    rw [if_neg (by simp [h2]), h3]

/-- Witness for C4: a class with two missing required parameters
aggregates both problems into one message, and a class whose
constructor raises has the failure wrapped. -/
theorem policyBuilder_claim_witness :
    (collectProblems ⟨fun _ => none⟩ (fun v => .ok v) "P_"
        (PolicyClass.params ⟨[⟨"a", none, none⟩, ⟨"b", none, none⟩],
          fun _ => (.ok 0 : Except String Nat)⟩) =
      ["Missing required 'P_A'", "Missing required 'P_B'"]) ∧
    (PolicyBuilder.build ⟨fun _ => none⟩ (fun v => .ok v)
        ⟨[⟨"a", none, none⟩, ⟨"b", none, none⟩], fun _ => (.ok 0 : Except String Nat)⟩
        "P_" "demo policy" =
      .error (.configValidation
        ("Errors building " ++ "demo policy" ++ ": " ++
          joinSep "; " (collectProblems ⟨fun _ => none⟩ (fun v => .ok v) "P_"
            (PolicyClass.params ⟨[⟨"a", none, none⟩, ⟨"b", none, none⟩],
              fun _ => (.ok 0 : Except String Nat)⟩))))) ∧
    (∃ pre post,
      ("Errors building " ++ "demo policy" ++ ": " ++
        joinSep "; " (collectProblems ⟨fun _ => none⟩ (fun v => .ok v) "P_"
          (PolicyClass.params ⟨[⟨"a", none, none⟩, ⟨"b", none, none⟩],
            fun _ => (.ok 0 : Except String Nat)⟩))) =
        pre ++ "Missing required 'P_B'" ++ post) ∧
    (PolicyBuilder.build ⟨fun _ => none⟩ (fun v => .ok v)
        ⟨[], fun _ => (.error "min too small" : Except String Nat)⟩ "P_" "demo policy" =
      .error (.configValidation ("Invalid configuration for " ++ "demo policy" ++ ": " ++
        "min too small"))) := by
  refine ⟨by decide, ?_, ?_, ?_⟩
  · exact (policyBuilder_claim.1 Nat ⟨fun _ => none⟩ (fun v => .ok v)
      ⟨[⟨"a", none, none⟩, ⟨"b", none, none⟩], fun _ => .ok 0⟩ "P_" "demo policy"
      (by decide)).1
  · have h := policyBuilder_claim.1 Nat ⟨fun _ => none⟩ (fun v => .ok v)
      ⟨[⟨"a", none, none⟩, ⟨"b", none, none⟩], fun _ => .ok 0⟩ "P_" "demo policy"
      (by decide)
    exact h.2 "Missing required 'P_B'" (by decide)
  · exact policyBuilder_claim.2 Nat ⟨fun _ => none⟩ (fun v => .ok v)
      ⟨[], fun _ => .error "min too small"⟩ "P_" "demo policy" "min too small"
      (by decide) (by decide) rfl

end SecurityKit
